import Mathlib

/-!
Shallow embedding of the LacrossePlayMaker editing, animation, geometry and
storage code, together with theorems settling the specification claims.

Sources embedded:
- the canvas state hook (`useCanvasState`, src/unnamed/part_003): history
  triple, push operations, undo/redo, `getAnimatedElements`;
- the field editor (`LacrosseField`, src/unnamed/part_001): mouse-move /
  mouse-up arrow drawing with the `tempArrow` preview;
- the geometry helpers (src/LacrossePage.tsx): `distance`, `isPointNearLine`;
- the server pieces (src/schema.ts, src/routes.ts, src/storage.ts):
  the canvas-element zod schema, the `POST /api/plays` handler, and the
  `MemStorage` / `DatabaseStorage` `createPlay` and `deleteFolder` methods.

Machine numbers (JS doubles) are embedded as `ℚ` for the editor and as `ℝ`
for the square-root geometry of `isPointNearLine`.
-/

namespace LPM

/-! ## Element data model (src/schema.ts `canvasElementSchema`) -/

inductive ElType where
  | player
  | ball
  | moveArrow
  | passArrow
  | shootArrow
  | text
deriving DecidableEq

inductive Team where
  | blue
  | red
deriving DecidableEq

/-- One canvas element, mirroring `canvasElementSchema` in src/schema.ts:
`id`, `type`, `x`, `y` required; `points`, `position`, `team`, `text`
optional. -/
structure CanvasElement where
  id : String
  type : ElType
  x : ℚ
  y : ℚ
  points : Option (List ℚ)
  position : Option String
  team : Option Team
  text : Option String
deriving DecidableEq

/-! ## History stack (src/unnamed/part_003 `useCanvasState`) -/

/-- The undo/redo triple held by `useCanvasState`. -/
structure HistoryState where
  past : List (List CanvasElement)
  present : List CanvasElement
  future : List (List CanvasElement)
deriving DecidableEq

/-- A `Partial<CanvasElement>` record of changes, as passed to
`updateElement`; `applyPatch` realises the JS spread `{ ...el, ...changes }`. -/
structure ElementPatch where
  id : Option String
  type : Option ElType
  x : Option ℚ
  y : Option ℚ
  points : Option (List ℚ)
  position : Option String
  team : Option Team
  text : Option String
deriving DecidableEq

/-- JS object spread `{ ...el, ...changes }`: a field present in the patch
overrides the element's field. -/
def applyPatch (p : ElementPatch) (el : CanvasElement) : CanvasElement :=
  { id := p.id.getD el.id
    type := p.type.getD el.type
    x := p.x.getD el.x
    y := p.y.getD el.y
    points := p.points.orElse fun _ => el.points
    position := p.position.orElse fun _ => el.position
    team := p.team.orElse fun _ => el.team
    text := p.text.orElse fun _ => el.text }

/-- `setElements` (part_003 lines 31-37): push present onto past, install the
new collection, clear future. -/
def setElements (newElements : List CanvasElement) (h : HistoryState) : HistoryState :=
  { past := h.past ++ [h.present], present := newElements, future := [] }

/-- `addElement` (part_003 lines 40-51).  The source assigns a fresh nanoid
when `element.id` is empty; the id value is irrelevant to the history shape,
so the element is pushed as given. -/
def addElement (element : CanvasElement) (h : HistoryState) : HistoryState :=
  { past := h.past ++ [h.present], present := h.present ++ [element], future := [] }

/-- `updateElement` (part_003 lines 54-60). -/
def updateElement (i : String) (changes : ElementPatch) (h : HistoryState) : HistoryState :=
  { past := h.past ++ [h.present]
    present := h.present.map fun el => if el.id = i then applyPatch changes el else el
    future := [] }

/-- `removeElement` (part_003 lines 63-69). -/
def removeElement (i : String) (h : HistoryState) : HistoryState :=
  { past := h.past ++ [h.present]
    present := h.present.filter fun el => el.id != i
    future := [] }

/-- `clearElements` (part_003 lines 72-78). -/
def clearElements (h : HistoryState) : HistoryState :=
  { past := h.past ++ [h.present], present := [], future := [] }

/-- `undoAction` (part_003 lines 81-94): return unchanged when
`past.length === 0`; otherwise `pop()` the tail of past into present (with
the source's `|| []` fallback as `getLastD`) and cons the old present onto
future. -/
def undoAction (h : HistoryState) : HistoryState :=
  if h.past.length = 0 then h
  else
    { past := h.past.dropLast
      present := h.past.getLastD []
      future := h.present :: h.future }

/-- `redoAction` (part_003 lines 97-110): return unchanged when
`future.length === 0`; otherwise `shift()` the head of future into present
(with the `|| []` fallback as `headD`) and append the old present to past. -/
def redoAction (h : HistoryState) : HistoryState :=
  if h.future.length = 0 then h
  else
    { past := h.past ++ [h.present]
      present := h.future.headD []
      future := h.future.tail }

/-- The five mutating operations of the hook, each of which pushes history. -/
inductive PushOp where
  | set (els : List CanvasElement)
  | add (el : CanvasElement)
  | update (i : String) (changes : ElementPatch)
  | remove (i : String)
  | clear
deriving DecidableEq

def applyPush (op : PushOp) (h : HistoryState) : HistoryState :=
  match op with
  | .set els => setElements els h
  | .add el => addElement el h
  | .update i c => updateElement i c h
  | .remove i => removeElement i h
  | .clear => clearElements h

def applyPushes (ops : List PushOp) (h : HistoryState) : HistoryState :=
  ops.foldl (fun s op => applyPush op s) h

/-! sanity checks on the embedding (kernel-evaluable) -/

def emptyHistory : HistoryState := ⟨[], [], []⟩

def samplePlayer : CanvasElement :=
  ⟨"p1", .player, 10, 10, none, some "A", some .blue, none⟩

example : (addElement samplePlayer emptyHistory).present = [samplePlayer] := by decide
example : (undoAction (addElement samplePlayer emptyHistory)).present = [] := by decide
example :
    redoAction (undoAction (addElement samplePlayer emptyHistory)) =
      addElement samplePlayer emptyHistory := by decide
example : ((10 : ℚ) + (1 : ℚ) / 2) * 2 = 21 := by norm_num
example : (0 : ℚ) + (100 - 0) * 50 / 100 = 50 := by norm_num

/-! ## History lemmas -/

lemma undoAction_concat (L : List (List CanvasElement)) (x p : List CanvasElement)
    (f : List (List CanvasElement)) :
    undoAction ⟨L.concat x, p, f⟩ = ⟨L, x, p :: f⟩ := by
  simp [undoAction]

lemma redoAction_cons (past : List (List CanvasElement)) (p q : List CanvasElement)
    (f : List (List CanvasElement)) :
    redoAction ⟨past, p, q :: f⟩ = ⟨past ++ [p], q, f⟩ := by
  simp [redoAction]

/-- Undoing and immediately redoing restores the whole triple, whenever the
undo had something to pop. -/
lemma redoAction_undoAction (h : HistoryState) (hp : h.past ≠ []) :
    redoAction (undoAction h) = h := by
  obtain ⟨past, p, f⟩ := h
  rcases List.eq_nil_or_concat past with rfl | ⟨L, x, rfl⟩
  · simp at hp
  · rw [undoAction_concat, redoAction_cons, List.concat_eq_append]

lemma undoAction_past_length (h : HistoryState) :
    (undoAction h).past.length = h.past.length - 1 := by
  rcases h with ⟨past, p, f⟩
  by_cases hp : past.length = 0
  · simp [undoAction, hp]
  · simp [undoAction, hp, List.length_dropLast]

lemma undoAction_iter_past_length (k : ℕ) (h : HistoryState) :
    (undoAction^[k] h).past.length = h.past.length - k := by
  induction k generalizing h with
  | zero => simp
  | succ n ih =>
    rw [Function.iterate_succ_apply, ih, undoAction_past_length]
    omega

/-- `k` undos followed by `k` redos restore the whole history triple, as long
as `k` does not exceed the depth of the past stack. -/
lemma redo_iter_undo_iter (k : ℕ) (h : HistoryState) (hk : k ≤ h.past.length) :
    redoAction^[k] (undoAction^[k] h) = h := by
  induction k with
  | zero => simp
  | succ n ih =>
    have hlen : (undoAction^[n] h).past.length = h.past.length - n :=
      undoAction_iter_past_length n h
    have hne : (undoAction^[n] h).past ≠ [] := by
      have : 0 < (undoAction^[n] h).past.length := by omega
      exact List.ne_nil_of_length_pos this
    rw [Function.iterate_succ_apply' undoAction, Function.iterate_succ_apply redoAction,
      redoAction_undoAction _ hne, ih (by omega)]

/-! ## Claims about the history stack -/

/-- Claim C1: for every history state and every sequence of push operations
(add / update / remove / clear / bulk-set) followed by `k` undos and then
`k` redos, with `k` at most the number of entries in `past`, the resulting
present element collection equals the present collection held immediately
before the undos. -/
theorem c1_push_undo_redo_roundtrip (h0 : HistoryState) (ops : List PushOp) (k : ℕ)
    (hk : k ≤ (applyPushes ops h0).past.length) :
    (redoAction^[k] (undoAction^[k] (applyPushes ops h0))).present =
      (applyPushes ops h0).present := by
  rw [redo_iter_undo_iter k _ hk]

/-- Witness for C1 at a concrete input: two pushes, then two undos and two
redos. -/
theorem c1_witness :
    2 ≤ (applyPushes [PushOp.add samplePlayer, PushOp.clear] emptyHistory).past.length ∧
    (redoAction^[2] (undoAction^[2]
        (applyPushes [PushOp.add samplePlayer, PushOp.clear] emptyHistory))).present =
      (applyPushes [PushOp.add samplePlayer, PushOp.clear] emptyHistory).present :=
  ⟨by decide, c1_push_undo_redo_roundtrip emptyHistory
    [PushOp.add samplePlayer, PushOp.clear] 2 (by decide)⟩

/-- Claim C5: after every mutating push operation the history's `future`
list is empty, so a redo immediately after any push is a no-op. -/
theorem c5_push_clears_future (h : HistoryState) (op : PushOp) :
    (applyPush op h).future = [] ∧ redoAction (applyPush op h) = applyPush op h := by
  cases op <;> exact ⟨rfl, rfl⟩

/-- Claim C9: undo on an empty past leaves the whole triple unchanged, and
redo on an empty future leaves the whole triple unchanged. -/
theorem c9_undo_redo_noop_on_empty (h h2 : HistoryState) :
    (h.past = [] → undoAction h = h) ∧ (h2.future = [] → redoAction h2 = h2) := by
  constructor
  · intro hp
    simp [undoAction, hp]
  · intro hf
    simp [redoAction, hf]

/-- Witness for C9 at the empty history. -/
theorem c9_witness :
    undoAction emptyHistory = emptyHistory ∧ redoAction emptyHistory = emptyHistory :=
  ⟨(c9_undo_redo_noop_on_empty emptyHistory emptyHistory).1 rfl,
   (c9_undo_redo_noop_on_empty emptyHistory emptyHistory).2 rfl⟩

/-! ## Animation interpolator (`getAnimatedElements`, part_003 lines 129-164) -/

/-- `start + (end - start) * progress / 100`. -/
def interp (s e p : ℚ) : ℚ := s + (e - s) * p / 100

/-- The in-place coordinate assignment performed on the matched player:
`playerAtStart.x = startX + ((endX - startX) * progress / 100)` and the
corresponding `y` assignment. -/
def moveTo (sx sy ex ey p : ℚ) (el : CanvasElement) : CanvasElement :=
  { el with x := interp sx ex p, y := interp sy ey p }

/-- The matching predicate inside `animatedElements.find`:
`el.type === 'player' && Math.abs(el.x - points[0]) < 20 &&
Math.abs(el.y - points[1]) < 20`. -/
def isPlayerNearStart (sx sy : ℚ) (el : CanvasElement) : Bool :=
  decide (el.type = ElType.player) && decide (|el.x - sx| < 20) && decide (|el.y - sy| < 20)

/-- `find` followed by the in-place mutation: replace the first matching
player by its interpolated copy, leave everything else alone. -/
def moveFirstMatch (sx sy ex ey p : ℚ) : List CanvasElement → List CanvasElement
  | [] => []
  | el :: rest =>
    if isPlayerNearStart sx sy el then moveTo sx sy ex ey p el :: rest
    else el :: moveFirstMatch sx sy ex ey p rest

/-- One iteration of the `arrowElements.forEach` body: skip the arrow when
`!arrow.points || arrow.points.length < 4`, else move the first player found
near `(points[0], points[1])` toward `(points[2], points[3])`. -/
def applyArrow (p : ℚ) (els : List CanvasElement) (arrow : CanvasElement) : List CanvasElement :=
  match arrow.points with
  | some (sx :: sy :: ex :: ey :: _) => moveFirstMatch sx sy ex ey p els
  | _ => els

/-- `['moveArrow', 'passArrow', 'shootArrow'].includes(el.type)`. -/
def isArrowEl (el : CanvasElement) : Bool :=
  decide (el.type = ElType.moveArrow) || decide (el.type = ElType.passArrow) ||
    decide (el.type = ElType.shootArrow)

/-- `getAnimatedElements` (part_003 lines 129-164): deep-clone the elements
(pure copy here), collect the arrow elements once, and run the `forEach`
over them, each arrow moving the first matching player.  The clone makes the
function pure: the input collection is never mutated. -/
def getAnimatedElements (els : List CanvasElement) (p : ℚ) : List CanvasElement :=
  (els.filter isArrowEl).foldl (applyArrow p) els

/-- An arrow `a` has a well-formed `points` array whose start lies within
the 20-unit box around the player `el` (the condition under which the
interpolator repositions `el` for `a`). -/
def arrowMatches (a el : CanvasElement) : Bool :=
  isArrowEl a &&
    match a.points with
    | some (sx :: sy :: _ :: _ :: _) => isPlayerNearStart sx sy el
    | _ => false

def matchedBySomeArrow (els : List CanvasElement) (el : CanvasElement) : Bool :=
  els.any fun a => arrowMatches a el

/-! ## Animation lemmas -/

lemma interp_zero (s e : ℚ) : interp s e 0 = s := by
  simp [interp]

lemma interp_hundred (s e : ℚ) : interp s e 100 = e := by
  unfold interp
  ring

lemma moveTo_moveTo (sx sy ex ey p sx2 sy2 ex2 ey2 p2 : ℚ) (el : CanvasElement) :
    moveTo sx2 sy2 ex2 ey2 p2 (moveTo sx sy ex ey p el) = moveTo sx2 sy2 ex2 ey2 p2 el := rfl

lemma moveFirstMatch_length (sx sy ex ey p : ℚ) (L : List CanvasElement) :
    (moveFirstMatch sx sy ex ey p L).length = L.length := by
  induction L with
  | nil => rfl
  | cons el rest ih =>
    by_cases hnear : isPlayerNearStart sx sy el = true
    · simp [moveFirstMatch, hnear]
    · simp [moveFirstMatch, hnear, ih]

lemma moveFirstMatch_getD (sx sy ex ey p : ℚ) (L : List CanvasElement) (i : ℕ)
    (d : CanvasElement) :
    (moveFirstMatch sx sy ex ey p L).getD i d = L.getD i d ∨
      (isPlayerNearStart sx sy (L.getD i d) = true ∧
       (moveFirstMatch sx sy ex ey p L).getD i d = moveTo sx sy ex ey p (L.getD i d)) := by
  induction L generalizing i with
  | nil => left; rfl
  | cons el rest ih =>
    by_cases hnear : isPlayerNearStart sx sy el = true
    · cases i with
      | zero => right; exact ⟨hnear, by simp [moveFirstMatch, hnear]⟩
      | succ n => left; simp [moveFirstMatch, hnear]
    · cases i with
      | zero => left; simp [moveFirstMatch, hnear]
      | succ n =>
        have := ih n
        simpa [moveFirstMatch, hnear] using this

lemma applyArrow_length (p : ℚ) (a : CanvasElement) (L : List CanvasElement) :
    (applyArrow p L a).length = L.length := by
  unfold applyArrow
  rcases hpts : a.points with _ | pts
  · rfl
  · rcases pts with _ | ⟨sx, _ | ⟨sy, _ | ⟨ex, _ | ⟨ey, r⟩⟩⟩⟩ <;>
      simp [moveFirstMatch_length]

lemma applyArrow_getD (p : ℚ) (a : CanvasElement) (L : List CanvasElement) (i : ℕ)
    (d : CanvasElement) :
    (applyArrow p L a).getD i d = L.getD i d ∨
      ∃ sx sy ex ey r, a.points = some (sx :: sy :: ex :: ey :: r) ∧
        isPlayerNearStart sx sy (L.getD i d) = true ∧
        (applyArrow p L a).getD i d = moveTo sx sy ex ey p (L.getD i d) := by
  unfold applyArrow
  rcases hpts : a.points with _ | pts
  · left; rfl
  · rcases pts with _ | ⟨sx, _ | ⟨sy, _ | ⟨ex, _ | ⟨ey, r⟩⟩⟩⟩
    · left; rfl
    · left; rfl
    · left; rfl
    · left; rfl
    · rcases moveFirstMatch_getD sx sy ex ey p L i d with heq | ⟨hnear, hmv⟩
      · left; exact heq
      · right; exact ⟨sx, sy, ex, ey, r, rfl, hnear, hmv⟩

lemma foldl_applyArrow_length (p : ℚ) (A : List CanvasElement) (L : List CanvasElement) :
    (A.foldl (applyArrow p) L).length = L.length := by
  induction A generalizing L with
  | nil => rfl
  | cons a A ih =>
    rw [List.foldl_cons, ih, applyArrow_length]

/-- Main invariant of the `forEach` over arrows: each position of the output
either carries the untouched input element, or the input element there was a
player inside the 20-unit box of some arrow's start, and the output element
is the interpolated copy produced by some arrow (the last one to move it). -/
lemma foldl_applyArrow_getD (p : ℚ) (A : List CanvasElement) (L : List CanvasElement)
    (i : ℕ) (d : CanvasElement) :
    (A.foldl (applyArrow p) L).getD i d = L.getD i d ∨
      ((∃ a ∈ A, ∃ sx sy ex ey r, a.points = some (sx :: sy :: ex :: ey :: r) ∧
          isPlayerNearStart sx sy (L.getD i d) = true) ∧
       (∃ a ∈ A, ∃ sx sy ex ey r, a.points = some (sx :: sy :: ex :: ey :: r) ∧
          (A.foldl (applyArrow p) L).getD i d = moveTo sx sy ex ey p (L.getD i d))) := by
  induction A generalizing L with
  | nil => left; rfl
  | cons a A ih =>
    rw [List.foldl_cons]
    rcases applyArrow_getD p a L i d with heq | ⟨sx, sy, ex, ey, r, hpts, hnear, hmv⟩
    · rcases ih (applyArrow p L a) with h2 | ⟨⟨a1, ha1, sx1, sy1, ex1, ey1, r1, hp1, hn1⟩,
        ⟨a2, ha2, sx2, sy2, ex2, ey2, r2, hp2, hm2⟩⟩
      · left; rw [h2, heq]
      · right
        refine ⟨⟨a1, List.mem_cons_of_mem a ha1, sx1, sy1, ex1, ey1, r1, hp1, ?_⟩,
          ⟨a2, List.mem_cons_of_mem a ha2, sx2, sy2, ex2, ey2, r2, hp2, ?_⟩⟩
        · rwa [heq] at hn1
        · rwa [heq] at hm2
    · rcases ih (applyArrow p L a) with h2 | ⟨_, ⟨a2, ha2, sx2, sy2, ex2, ey2, r2, hp2, hm2⟩⟩
      · right
        exact ⟨⟨a, List.mem_cons_self a A, sx, sy, ex, ey, r, hpts, hnear⟩,
          ⟨a, List.mem_cons_self a A, sx, sy, ex, ey, r, hpts, by rw [h2, hmv]⟩⟩
      · right
        refine ⟨⟨a, List.mem_cons_self a A, sx, sy, ex, ey, r, hpts, hnear⟩,
          ⟨a2, List.mem_cons_of_mem a ha2, sx2, sy2, ex2, ey2, r2, hp2, ?_⟩⟩
        rw [hm2, hmv, moveTo_moveTo]

lemma isPlayerNearStart_type {sx sy : ℚ} {el : CanvasElement}
    (h : isPlayerNearStart sx sy el = true) : el.type = ElType.player := by
  simp [isPlayerNearStart] at h
  exact h.1.1

/-- If the first matching index is in range, `moveFirstMatch` replaces exactly
that element by its interpolated copy. -/
lemma moveFirstMatch_findIdx (sx sy ex ey p : ℚ) (L : List CanvasElement) (d : CanvasElement)
    (hj : L.findIdx (fun el => isPlayerNearStart sx sy el) < L.length) :
    (moveFirstMatch sx sy ex ey p L).getD (L.findIdx fun el => isPlayerNearStart sx sy el) d =
      moveTo sx sy ex ey p (L.getD (L.findIdx fun el => isPlayerNearStart sx sy el) d) := by
  induction L with
  | nil => simp at hj
  | cons el rest ih =>
    by_cases hnear : isPlayerNearStart sx sy el = true
    · simp [moveFirstMatch, hnear, List.findIdx_cons]
    · have hidx : ((el :: rest).findIdx fun e => isPlayerNearStart sx sy e) =
          (rest.findIdx fun e => isPlayerNearStart sx sy e) + 1 := by
        simp [List.findIdx_cons, hnear]
      rw [hidx] at hj ⊢
      have hj2 : (rest.findIdx fun e => isPlayerNearStart sx sy e) < rest.length := by
        simpa using hj
      simpa [moveFirstMatch, hnear] using ih hj2

/-! ## Claims about the animation interpolator -/

/-- A concrete `moveArrow` starting at `(0,0)` and ending at `(100,100)`;
`samplePlayer` sits at `(10,10)`, inside the 20-unit matching box of its
start. -/
def sampleArrow : CanvasElement :=
  ⟨"a1", .moveArrow, 0, 0, some [0, 0, 100, 100], none, none, none⟩

/-- Counterexample to claim C2 as stated: at progress `0` the matched player
does NOT keep its original position — the code snaps it to the arrow's start
point.  With the player at `(10,10)` and the arrow starting at `(0,0)`,
`animate(elements, 0)` moves the player's `x` from `10` to `0`. -/
theorem c2_counterexample :
    ((getAnimatedElements [samplePlayer, sampleArrow] 0).getD 0 samplePlayer).x ≠
      samplePlayer.x := by
  have hfilter : [samplePlayer, sampleArrow].filter isArrowEl = [sampleArrow] := by decide
  have hnear : isPlayerNearStart 0 0 samplePlayer = true := by
    simp [isPlayerNearStart, samplePlayer, abs_lt]
    norm_num
  have hrun : getAnimatedElements [samplePlayer, sampleArrow] 0 =
      moveTo 0 0 100 100 0 samplePlayer :: [sampleArrow] := by
    rw [getAnimatedElements, hfilter]
    simp [applyArrow, sampleArrow, moveFirstMatch, hnear]
  rw [hrun]
  simp [moveTo, interp, samplePlayer]

/-- Claim C2, amended: at progress `0` every element the interpolator moves
is placed at the *start point* of one of the collection's arrows (not, as the
original claim said, kept at its own original position), and at progress
`100` every moved element is placed exactly at the end coordinates
`(points[2], points[3])` of one of the arrows; moreover, when the collection
contains exactly one arrow, the first player within 20 units (per axis) of
its start — the matched player — is placed exactly at that arrow's end at
progress `100`. -/
theorem c2_animate_endpoints (els : List CanvasElement) (i : ℕ) (d : CanvasElement) :
    ((getAnimatedElements els 0).getD i d ≠ els.getD i d →
        ∃ a ∈ els, isArrowEl a = true ∧ ∃ sx sy ex ey r,
          a.points = some (sx :: sy :: ex :: ey :: r) ∧
          ((getAnimatedElements els 0).getD i d).x = sx ∧
          ((getAnimatedElements els 0).getD i d).y = sy) ∧
    ((getAnimatedElements els 100).getD i d ≠ els.getD i d →
        ∃ a ∈ els, isArrowEl a = true ∧ ∃ sx sy ex ey r,
          a.points = some (sx :: sy :: ex :: ey :: r) ∧
          ((getAnimatedElements els 100).getD i d).x = ex ∧
          ((getAnimatedElements els 100).getD i d).y = ey) ∧
    (∀ a sx sy ex ey r, els.filter isArrowEl = [a] →
        a.points = some (sx :: sy :: ex :: ey :: r) →
        ∀ j, j = els.findIdx (fun el => isPlayerNearStart sx sy el) → j < els.length →
          ((getAnimatedElements els 100).getD j d).x = ex ∧
          ((getAnimatedElements els 100).getD j d).y = ey) := by
  refine ⟨?_, ?_, ?_⟩
  · intro hne
    rcases foldl_applyArrow_getD 0 (els.filter isArrowEl) els i d with heq | ⟨_,
      ⟨a, ha, sx, sy, ex, ey, r, hpts, hmv⟩⟩
    · exact absurd heq hne
    · rcases List.mem_filter.mp ha with ⟨hmem, harr⟩
      refine ⟨a, hmem, harr, sx, sy, ex, ey, r, hpts, ?_, ?_⟩
      · rw [getAnimatedElements, hmv]
        simp [moveTo, interp_zero]
      · rw [getAnimatedElements, hmv]
        simp [moveTo, interp_zero]
  · intro hne
    rcases foldl_applyArrow_getD 100 (els.filter isArrowEl) els i d with heq | ⟨_,
      ⟨a, ha, sx, sy, ex, ey, r, hpts, hmv⟩⟩
    · exact absurd heq hne
    · rcases List.mem_filter.mp ha with ⟨hmem, harr⟩
      refine ⟨a, hmem, harr, sx, sy, ex, ey, r, hpts, ?_, ?_⟩
      · rw [getAnimatedElements, hmv]
        simp [moveTo, interp_hundred]
      · rw [getAnimatedElements, hmv]
        simp [moveTo, interp_hundred]
  · intro a sx sy ex ey r hfilter hpts j hj hjlen
    subst hj
    have hrun : getAnimatedElements els 100 = moveFirstMatch sx sy ex ey 100 els := by
      rw [getAnimatedElements, hfilter, List.foldl_cons, List.foldl_nil, applyArrow, hpts]
    rw [hrun, moveFirstMatch_findIdx sx sy ex ey 100 els d hjlen, moveTo,
      interp_hundred, interp_hundred]
    exact ⟨rfl, rfl⟩

/-- Witness for the amended C2: with `samplePlayer` at `(10,10)` and the
single arrow from `(0,0)` to `(100,100)`, the matched player lands exactly on
`(100,100)` at progress `100`. -/
theorem c2_witness :
    ((getAnimatedElements [samplePlayer, sampleArrow] 100).getD 0 samplePlayer).x = 100 ∧
    ((getAnimatedElements [samplePlayer, sampleArrow] 100).getD 0 samplePlayer).y = 100 := by
  have hfilter : [samplePlayer, sampleArrow].filter isArrowEl = [sampleArrow] := by decide
  have hnear : isPlayerNearStart 0 0 samplePlayer = true := by
    simp [isPlayerNearStart, samplePlayer, abs_lt]
    norm_num
  have hidx : ([samplePlayer, sampleArrow].findIdx fun el => isPlayerNearStart 0 0 el) = 0 := by
    simp [List.findIdx_cons, hnear]
  exact (c2_animate_endpoints [samplePlayer, sampleArrow] 0 samplePlayer).2.2
    sampleArrow 0 0 100 100 [] hfilter rfl 0 hidx.symm (by decide)

/-- Claim C8: the interpolator is a pure pass-through outside the repositioned
players: the output has the same length as the input, any position whose
output differs from its input holds a player lying within the 20-unit
matching box of some arrow's start, and any element matched by no arrow
(balls, text, the arrows themselves, and unmatched players) appears in the
output unchanged.  (Non-mutation of the input collection is inherent to the
embedding: `getAnimatedElements` is a pure function of its argument.) -/
theorem c8_animate_pass_through (els : List CanvasElement) (p : ℚ) (i : ℕ)
    (d : CanvasElement) :
    (getAnimatedElements els p).length = els.length ∧
    ((getAnimatedElements els p).getD i d ≠ els.getD i d →
       (els.getD i d).type = ElType.player ∧
       matchedBySomeArrow els (els.getD i d) = true) ∧
    (matchedBySomeArrow els (els.getD i d) = false →
       (getAnimatedElements els p).getD i d = els.getD i d) := by
  have hmain := foldl_applyArrow_getD p (els.filter isArrowEl) els i d
  refine ⟨foldl_applyArrow_length p (els.filter isArrowEl) els, ?_, ?_⟩
  · intro hne
    rcases hmain with heq | ⟨⟨a, ha, sx, sy, ex, ey, r, hpts, hnear⟩, _⟩
    · exact absurd heq hne
    · rcases List.mem_filter.mp ha with ⟨hmem, harr⟩
      refine ⟨isPlayerNearStart_type hnear, ?_⟩
      rw [matchedBySomeArrow, List.any_eq_true]
      exact ⟨a, hmem, by
        simp only [arrowMatches, hpts, harr, hnear, Bool.true_and]⟩
  · intro hnone
    rcases hmain with heq | ⟨⟨a, ha, sx, sy, ex, ey, r, hpts, hnear⟩, _⟩
    · exact heq
    · exfalso
      rcases List.mem_filter.mp ha with ⟨hmem, harr⟩
      have : matchedBySomeArrow els (els.getD i d) = true := by
        rw [matchedBySomeArrow, List.any_eq_true]
        exact ⟨a, hmem, by
          simp only [arrowMatches, hpts, harr, hnear, Bool.true_and]⟩
      rw [this] at hnone
      exact Bool.noConfusion hnone

/-- Witness for C8: a collection with a lone player and no arrows passes
through the interpolator unchanged. -/
theorem c8_witness :
    (getAnimatedElements [samplePlayer] 0).length = [samplePlayer].length ∧
    (getAnimatedElements [samplePlayer] 0).getD 0 samplePlayer =
      [samplePlayer].getD 0 samplePlayer :=
  ⟨(c8_animate_pass_through [samplePlayer] 0 0 samplePlayer).1,
   (c8_animate_pass_through [samplePlayer] 0 0 samplePlayer).2.2 (by decide)⟩

/-! ## Arrow-draw gesture (`LacrosseField`, part_001 lines 273-326)

In part_001 the `elements` state is kept in lock-step with
`history.present`, so the gesture handlers are modelled as functions on the
history triple alone. -/

/-- The transient preview element built in `handleMouseMove` while drawing:
`{ id: 'tempArrow', type: selectedTool, x: startX, y: startY,
points: [startX, startY, pos.x, pos.y] }`. -/
def previewArrow (tool : ElType) (sx sy px py : ℚ) : CanvasElement :=
  ⟨"tempArrow", tool, sx, sy, some [sx, sy, px, py], none, none, none⟩

/-- The same data used as the `updateElement` change record. -/
def previewPatch (tool : ElType) (sx sy px py : ℚ) : ElementPatch :=
  ⟨some "tempArrow", some tool, some sx, some sy, some [sx, sy, px, py], none, none, none⟩

/-- `handleMouseMove` in the drawing branch (part_001 lines 282-299): if a
`tempArrow` element exists, update it; otherwise add it.  Both paths go
through the history-pushing `updateElement` / `addElement`. -/
def handleMouseMoveDraw (tool : ElType) (sx sy px py : ℚ) (h : HistoryState) : HistoryState :=
  if h.present.any (fun el => el.id == "tempArrow") then
    updateElement "tempArrow" (previewPatch tool sx sy px py) h
  else
    addElement (previewArrow tool sx sy px py) h

/-- `handleMouseUp` in the drawing branch (part_001 lines 303-326): remove
the temporary arrow, then add the final arrow element only when
`Math.abs(startPoint.x - pos.x) > 5 || Math.abs(startPoint.y - pos.y) > 5`.
`newId` stands for `generateId()`; that helper returns a 7-character random
string, so it can never equal the 9-character `"tempArrow"`. -/
def handleMouseUpDraw (tool : ElType) (sx sy px py : ℚ) (newId : String)
    (h : HistoryState) : HistoryState :=
  let h1 := removeElement "tempArrow" h
  if 5 < |sx - px| ∨ 5 < |sy - py| then
    addElement ⟨newId, tool, sx, sy, some [sx, sy, px, py], none, none, none⟩ h1
  else h1

/-! ## Claims about the arrow-draw gesture -/

/-- Claim C7: on pointer-up of an arrow-draw gesture, an arrow element with
`points = [startX, startY, endX, endY]` is appended iff the displacement
from the start point exceeds 5 field units in some axis; when the end point
lies within 5 units of the start in both axes nothing is added, and — since
the preview is not part of the persisted collection — the collection is
unchanged. -/
theorem c7_arrow_added_iff_long_enough (h : HistoryState) (tool : ElType)
    (sx sy px py : ℚ) (newId : String) :
    ((|sx - px| ≤ 5 ∧ |sy - py| ≤ 5) →
       (handleMouseUpDraw tool sx sy px py newId h).present =
         h.present.filter (fun el => el.id != "tempArrow")) ∧
    ((5 < |sx - px| ∨ 5 < |sy - py|) →
       (handleMouseUpDraw tool sx sy px py newId h).present =
         h.present.filter (fun el => el.id != "tempArrow") ++
           [⟨newId, tool, sx, sy, some [sx, sy, px, py], none, none, none⟩]) ∧
    ((∀ el ∈ h.present, el.id ≠ "tempArrow") → |sx - px| ≤ 5 → |sy - py| ≤ 5 →
       (handleMouseUpDraw tool sx sy px py newId h).present = h.present) := by
  refine ⟨?_, ?_, ?_⟩
  · intro hshort
    have hcond : ¬(5 < |sx - px| ∨ 5 < |sy - py|) := by
      push_neg
      exact hshort
    rw [handleMouseUpDraw, if_neg hcond]
    rfl
  · intro hlong
    rw [handleMouseUpDraw, if_pos hlong]
    rfl
  · intro hno hx hy
    have hcond : ¬(5 < |sx - px| ∨ 5 < |sy - py|) := by
      push_neg
      exact ⟨hx, hy⟩
    rw [handleMouseUpDraw, if_neg hcond]
    show h.present.filter (fun el => el.id != "tempArrow") = h.present
    rw [List.filter_eq_self]
    intro el hel
    exact bne_iff_ne.mpr (hno el hel)

/-- Witness for C7: a 3-by-3-unit gesture on an empty collection adds
nothing. -/
theorem c7_witness :
    (handleMouseUpDraw ElType.moveArrow 0 0 3 3 "n1" emptyHistory).present = [] := by
  have habs : |(0 : ℚ) - 3| ≤ 5 := by
    rw [abs_le]
    constructor <;> norm_num
  exact (c7_arrow_added_iff_long_enough emptyHistory ElType.moveArrow 0 0 3 3 "n1").2.2
    (fun el hel => absurd hel (List.not_mem_nil el)) habs habs

/-- Counterexample to claim C6 as stated: the transient preview IS part of
the persisted collection while drawing.  One `handleMouseMove` step during an
arrow gesture pushes a history snapshot whose `present` contains the
`tempArrow` preview element. -/
theorem c6_counterexample :
    ((handleMouseMoveDraw ElType.moveArrow 0 0 10 10 emptyHistory).present.any
       fun el => el.id == "tempArrow") = true := by decide

/-- Claim C6, amended: in part_001 the arrow preview is maintained through
the history-pushing `addElement` / `updateElement` operations, so history
snapshots produced during the gesture do contain the `tempArrow` element;
it is however removed from the present collection before the final arrow is
(conditionally) added, so the present collection after pointer-up never
contains the preview. -/
theorem c6_preview_gone_after_mouseup (h : HistoryState) (tool : ElType)
    (sx sy px py : ℚ) (newId : String) (hid : newId ≠ "tempArrow") :
    ∀ el ∈ (handleMouseUpDraw tool sx sy px py newId h).present, el.id ≠ "tempArrow" := by
  intro el hel
  rw [handleMouseUpDraw] at hel
  by_cases hcond : 5 < |sx - px| ∨ 5 < |sy - py|
  · rw [if_pos hcond] at hel
    rcases List.mem_append.mp hel with hfilt | hnew
    · exact bne_iff_ne.mp (List.mem_filter.mp hfilt).2
    · rw [List.mem_singleton.mp hnew]
      exact hid
  · rw [if_neg hcond] at hel
    exact bne_iff_ne.mp (List.mem_filter.mp hel).2

/-- Witness for the amended C6: after a concrete pointer-up no element of the
present collection carries the preview id. -/
theorem c6_witness :
    ((handleMouseUpDraw ElType.moveArrow 0 0 10 10 "n1" emptyHistory).present.all
       fun el => el.id != "tempArrow") = true := by
  rw [List.all_eq_true]
  intro el hel
  exact bne_iff_ne.mpr
    (c6_preview_gone_after_mouseup emptyHistory ElType.moveArrow 0 0 10 10 "n1"
      (by decide) el hel)

/-! ## JSON values and the zod schemas (src/schema.ts) -/

/-- A JSON value, as carried by request bodies and the `canvas` jsonb
column. -/
inductive Json where
  | null
  | bool (b : Bool)
  | num (q : ℚ)
  | str (s : String)
  | arr (items : List Json)
  | obj (fields : List (String × Json))

def lookupField : List (String × Json) → String → Option Json
  | [], _ => none
  | (k, v) :: rest, key => if k = key then some v else lookupField rest key

def getField (j : Json) (key : String) : Option Json :=
  match j with
  | .obj fields => lookupField fields key
  | _ => none

def isStrOpt (v : Option Json) : Bool :=
  match v with
  | some (.str _) => true
  | _ => false

def isNumOpt (v : Option Json) : Bool :=
  match v with
  | some (.num _) => true
  | _ => false

def isNumJson (j : Json) : Bool :=
  match j with
  | .num _ => true
  | _ => false

/-- `z.enum(['player','ball','moveArrow','passArrow','shootArrow','text'])`
on a required key. -/
def typeEnumOk (v : Option Json) : Bool :=
  match v with
  | some (.str s) =>
      decide (s = "player") || decide (s = "ball") || decide (s = "moveArrow") ||
        decide (s = "passArrow") || decide (s = "shootArrow") || decide (s = "text")
  | _ => false

/-- `z.string().optional()`: absent is fine, present must be a string. -/
def optStrOk (v : Option Json) : Bool :=
  match v with
  | none => true
  | some (.str _) => true
  | some _ => false

/-- `z.enum(['blue','red']).optional()`. -/
def optTeamOk (v : Option Json) : Bool :=
  match v with
  | none => true
  | some (.str s) => decide (s = "blue") || decide (s = "red")
  | some _ => false

/-- `z.array(z.number()).optional()`. -/
def optNumArrayOk (v : Option Json) : Bool :=
  match v with
  | none => true
  | some (.arr items) => items.all isNumJson
  | some _ => false

/-- `canvasElementSchema.parse` succeeds (src/schema.ts lines 50-62):
an object with required `id : string`, `type : enum`, `x y : number`, and
optional `points / position / team / text` of the listed shapes. -/
def canvasElementOk (j : Json) : Bool :=
  (match j with | .obj _ => true | _ => false) &&
    isStrOpt (getField j "id") &&
    typeEnumOk (getField j "type") &&
    isNumOpt (getField j "x") &&
    isNumOpt (getField j "y") &&
    optNumArrayOk (getField j "points") &&
    optStrOk (getField j "position") &&
    optTeamOk (getField j "team") &&
    optStrOk (getField j "text")

/-- `z.array(canvasElementSchema).parse(canvas)` succeeds. -/
def canvasArrayOk (v : Option Json) : Bool :=
  match v with
  | some (.arr items) => items.all canvasElementOk
  | _ => false

/-- `insertPlaySchema.parse` succeeds.  Modelled from the drizzle-zod
library: `createInsertSchema(plays).pick({name, folderId, userId, canvas})`
maps the `text` column to `z.string()`, the `integer` columns to numbers,
and the `jsonb` column to a permissive any-JSON schema — element structure
inside `canvas` is NOT validated here. -/
def insertPlayOk (body : Json) : Bool :=
  (match body with | .obj _ => true | _ => false) &&
    isStrOpt (getField body "name") &&
    isNumOpt (getField body "folderId") &&
    isNumOpt (getField body "userId") &&
    (getField body "canvas").isSome

/-- The route's `{ ...req.body, userId: 1 }` (src/routes.ts lines 131-134). -/
def withUserId (body : Json) : Json :=
  match body with
  | .obj fields => .obj (("userId", Json.num 1) :: fields.filter (fun kv => kv.fst != "userId"))
  | _ => .obj [("userId", Json.num 1)]

/-- `POST /api/plays` resolved against `MemStorage`: the route parses with
`insertPlaySchema`, then `MemStorage.createPlay` (src/storage.ts lines
123-139) runs `z.array(canvasElementSchema).parse(insertPlay.canvas)`;
either `ZodError` is answered with status 400, success with 201. -/
def postPlaysMem (body : Json) : ℕ :=
  let parsed := withUserId body
  if insertPlayOk parsed then
    if canvasArrayOk (getField parsed "canvas") then 201 else 400
  else 400

/-- `POST /api/plays` resolved against `DatabaseStorage`: the route parses
with `insertPlaySchema`, and `DatabaseStorage.createPlay` (src/storage.ts
lines 238-244) inserts the row without any canvas validation. -/
def postPlaysDb (body : Json) : ℕ :=
  let parsed := withUserId body
  if insertPlayOk parsed then 201 else 400

/-- The storage the application actually wires up is `DatabaseStorage`
(`export const storage = new DatabaseStorage()`, src/storage.ts line 267). -/
def postPlays (body : Json) : ℕ := postPlaysDb body

/-- A canvas element missing the required `type` field. -/
def invalidElementJson : Json :=
  .obj [("id", .str "e1"), ("x", .num 0), ("y", .num 0)]

def validElementJson : Json :=
  .obj [("id", .str "e1"), ("type", .str "player"), ("x", .num 0), ("y", .num 0)]

def invalidPlayBody : Json :=
  .obj [("name", .str "Play 1"), ("folderId", .num 1), ("canvas", .arr [invalidElementJson])]

def validPlayBody : Json :=
  .obj [("name", .str "Play 1"), ("folderId", .num 1), ("canvas", .arr [validElementJson])]

/-! ## Claim about `POST /api/plays` validation -/

/-- Counterexample to claim C3 as stated: with the wired `DatabaseStorage`
backend, a `POST /api/plays` body whose canvas contains an element missing
the required `type` field is NOT rejected with 400 — the insert schema does
not look inside `canvas`, and `DatabaseStorage.createPlay` never validates
it, so the request is answered 201. -/
theorem c3_counterexample : postPlays invalidPlayBody ≠ 400 := by decide

/-- Claim C3, amended: the element-level canvas validation lives only in
`MemStorage.createPlay`: against `MemStorage` the invalid-element request is
rejected with 400 and the valid request is answered 201 with the created
play; but the route is wired to `DatabaseStorage`, whose `createPlay`
performs no canvas validation, so against the running configuration both
requests are answered 201, and a 400 can arise only from the top-level
`insertPlaySchema` parse (name / folderId / userId / canvas-present), never
from canvas element structure. -/
theorem c3_canvas_validation_backend_dependent :
    postPlaysMem invalidPlayBody = 400 ∧
    postPlaysMem validPlayBody = 201 ∧
    postPlays invalidPlayBody = 201 ∧
    postPlays validPlayBody = 201 ∧
    ∀ body, (postPlays body = 201 ↔ insertPlayOk (withUserId body) = true) := by
  refine ⟨by decide, by decide, by decide, by decide, ?_⟩
  intro body
  rw [postPlays, postPlaysDb]
  by_cases hok : insertPlayOk (withUserId body) = true
  · simp [hok]
  · simp [hok]

/-! ## In-memory storage (src/storage.ts `MemStorage`) -/

/-- A row of the `plays` table (src/schema.ts lines 31-40); timestamps are
abstracted to naturals. -/
structure StoredPlay where
  id : ℕ
  name : String
  folderId : ℕ
  userId : ℕ
  canvas : Json
  createdAt : ℕ
  updatedAt : ℕ

/-- A row of the `folders` table (src/schema.ts lines 18-23). -/
structure StoredFolder where
  id : ℕ
  name : String
  userId : ℕ
  createdAt : ℕ

/-- The folder and play maps of `MemStorage` (the user map plays no role in
the claims). -/
structure MemState where
  folders : List StoredFolder
  plays : List StoredPlay

/-- `MemStorage.deleteFolder` (src/storage.ts lines 92-103): delete every
play whose `folderId` equals the id, then delete the folder itself; the
returned boolean is `Map.delete`'s "key existed" result. -/
def deleteFolder (s : MemState) (i : ℕ) : MemState × Bool :=
  ({ folders := s.folders.filter (fun f => f.id != i)
     plays := s.plays.filter (fun p => p.folderId != i) },
   s.folders.any (fun f => f.id == i))

/-- `MemStorage.getPlays` (src/storage.ts lines 106-110): the plays of the
folder, most recently updated first. -/
def getPlays (s : MemState) (folderId : ℕ) : List StoredPlay :=
  (s.plays.filter (fun p => p.folderId == folderId)).mergeSort
    (fun a b => b.updatedAt ≤ a.updatedAt)

/-! ## Claim about `deleteFolder` -/

/-- Claim C10: after `MemStorage.deleteFolder(id)`, `getPlays(id)` returns
the empty list, no stored play references the deleted folder, and the folder
itself is gone. -/
theorem c10_deleteFolder_cascades (s : MemState) (i : ℕ) :
    getPlays (deleteFolder s i).1 i = [] ∧
    (∀ p ∈ (deleteFolder s i).1.plays, p.folderId ≠ i) ∧
    (∀ f ∈ (deleteFolder s i).1.folders, f.id ≠ i) := by
  refine ⟨?_, ?_, ?_⟩
  · rw [getPlays]
    have hemp : ((deleteFolder s i).1.plays.filter fun p => p.folderId == i) = [] := by
      rw [List.filter_eq_nil_iff]
      intro p hp
      have hne : p.folderId ≠ i := bne_iff_ne.mp (List.mem_filter.mp hp).2
      simp [hne]
    rw [hemp, List.mergeSort_nil]
  · intro p hp
    exact bne_iff_ne.mp (List.mem_filter.mp hp).2
  · intro f hf
    exact bne_iff_ne.mp (List.mem_filter.mp hf).2

/-- A concrete storage state: one folder with two plays and an unrelated
play in folder 2. -/
def sampleState : MemState :=
  { folders := [⟨1, "Offense Plays", 1, 0⟩, ⟨2, "Defense Plays", 1, 0⟩]
    plays := [⟨1, "Clear", 1, 1, .null, 0, 3⟩, ⟨2, "Ride", 1, 1, .null, 0, 5⟩,
      ⟨3, "Zone", 2, 1, .null, 0, 4⟩] }

/-- Witness for C10: deleting folder 1 of the sample state empties its play
list. -/
theorem c10_witness : getPlays (deleteFolder sampleState 1).1 1 = [] :=
  (c10_deleteFolder_cascades sampleState 1).1

/-! ## Geometry helpers (src/LacrossePage.tsx lines 1040-1072)

The JS numbers of `distance` / `isPointNearLine` take square roots, so they
are embedded over `ℝ`, with the boolean result as a `Prop`. -/

/-- `distance(x1, y1, x2, y2) = Math.sqrt((x2-x1)^2 + (y2-y1)^2)`. -/
noncomputable def distance (x1 y1 x2 y2 : ℝ) : ℝ :=
  Real.sqrt ((x2 - x1) ^ 2 + (y2 - y1) ^ 2)

open Classical in
/-- `isPointNearLine` (src/LacrossePage.tsx lines 1045-1072), with the two
`let`-bindings (`lineLength`, `t`) inlined: degenerate segment falls back to
the point distance; a projection parameter outside `[0,1]` compares the
distance to the corresponding endpoint; otherwise the distance to the
projection point is compared to the threshold. -/
def isPointNearLine (px py x1 y1 x2 y2 threshold : ℝ) : Prop :=
  if distance x1 y1 x2 y2 = 0 then distance px py x1 y1 ≤ threshold
  else if ((px - x1) * (x2 - x1) + (py - y1) * (y2 - y1)) /
      (distance x1 y1 x2 y2 * distance x1 y1 x2 y2) < 0 then
    distance px py x1 y1 ≤ threshold
  else if ((px - x1) * (x2 - x1) + (py - y1) * (y2 - y1)) /
      (distance x1 y1 x2 y2 * distance x1 y1 x2 y2) > 1 then
    distance px py x2 y2 ≤ threshold
  else
    distance px py
      (x1 + ((px - x1) * (x2 - x1) + (py - y1) * (y2 - y1)) /
        (distance x1 y1 x2 y2 * distance x1 y1 x2 y2) * (x2 - x1))
      (y1 + ((px - x1) * (x2 - x1) + (py - y1) * (y2 - y1)) /
        (distance x1 y1 x2 y2 * distance x1 y1 x2 y2) * (y2 - y1)) ≤ threshold

/-- The distance from `p` to the point of the segment `a-b` with parameter
`u ∈ [0,1]`. -/
noncomputable def segParam (px py x1 y1 x2 y2 u : ℝ) : ℝ :=
  distance px py (x1 + u * (x2 - x1)) (y1 + u * (y2 - y1))

/-- The spec-side notion for C4: the (infimum) distance from the query point
to the segment, i.e. to its set of parameter points. -/
noncomputable def distToSegment (px py x1 y1 x2 y2 : ℝ) : ℝ :=
  sInf (segParam px py x1 y1 x2 y2 '' Set.Icc 0 1)

/-! ## Geometry lemmas -/

lemma segParam_eq_sqrt (px py x1 y1 x2 y2 u : ℝ) :
    segParam px py x1 y1 x2 y2 u =
      Real.sqrt ((px - x1 - u * (x2 - x1)) ^ 2 + (py - y1 - u * (y2 - y1)) ^ 2) := by
  rw [segParam, distance]
  congr 1
  ring

/-- If the squared distance at parameter `u0 ∈ [0,1]` is minimal over the
parameter interval, then the infimum distance is attained there. -/
lemma distToSegment_eq_segParam (px py x1 y1 x2 y2 u0 : ℝ) (hu0 : u0 ∈ Set.Icc (0 : ℝ) 1)
    (hmin : ∀ u ∈ Set.Icc (0 : ℝ) 1,
      (px - x1 - u0 * (x2 - x1)) ^ 2 + (py - y1 - u0 * (y2 - y1)) ^ 2 ≤
        (px - x1 - u * (x2 - x1)) ^ 2 + (py - y1 - u * (y2 - y1)) ^ 2) :
    distToSegment px py x1 y1 x2 y2 = segParam px py x1 y1 x2 y2 u0 := by
  apply IsLeast.csInf_eq
  constructor
  · exact ⟨u0, hu0, rfl⟩
  · rintro y ⟨u, hu, rfl⟩
    rw [segParam_eq_sqrt, segParam_eq_sqrt]
    exact Real.sqrt_le_sqrt (hmin u hu)

/-- Quadratic fact for the `t < 0` branch: when the projection numerator is
negative, parameter `0` minimises the squared distance over `u ≥ 0`. -/
lemma clampZero_min (dx dy w1 w2 u : ℝ) (hu : 0 ≤ u) (hc : w1 * dx + w2 * dy < 0) :
    w1 ^ 2 + w2 ^ 2 ≤ (w1 - u * dx) ^ 2 + (w2 - u * dy) ^ 2 := by
  nlinarith [sq_nonneg (u * dx), sq_nonneg (u * dy),
    mul_nonneg hu (neg_nonneg.mpr hc.le)]

/-- Quadratic fact for the `t > 1` branch: when the projection numerator
exceeds the squared length, parameter `1` minimises the squared distance
over `u ≤ 1`. -/
lemma clampOne_min (dx dy w1 w2 u : ℝ) (hu : u ≤ 1)
    (hc : dx ^ 2 + dy ^ 2 < w1 * dx + w2 * dy) :
    (w1 - dx) ^ 2 + (w2 - dy) ^ 2 ≤ (w1 - u * dx) ^ 2 + (w2 - u * dy) ^ 2 := by
  have h2 : 0 ≤ 2 * (w1 * dx + w2 * dy) - (dx ^ 2 + dy ^ 2) * (u + 1) := by
    nlinarith [mul_nonneg (sub_nonneg.mpr hu) (add_nonneg (sq_nonneg dx) (sq_nonneg dy))]
  nlinarith [mul_nonneg (sub_nonneg.mpr hu) h2]

/-- Quadratic fact for the interior branch: the unconstrained projection
parameter minimises the squared distance everywhere. -/
lemma clampMid_min (dx dy w1 w2 t u : ℝ)
    (ht : t * (dx ^ 2 + dy ^ 2) = w1 * dx + w2 * dy) :
    (w1 - t * dx) ^ 2 + (w2 - t * dy) ^ 2 ≤ (w1 - u * dx) ^ 2 + (w2 - u * dy) ^ 2 := by
  have ht2 : (u - t) * (t * (dx ^ 2 + dy ^ 2)) = (u - t) * (w1 * dx + w2 * dy) := by
    rw [ht]
  nlinarith [sq_nonneg ((u - t) * dx), sq_nonneg ((u - t) * dy), ht2]

lemma distToSegment_degenerate (px py x1 y1 x2 y2 : ℝ) (hx : x2 = x1) (hy : y2 = y1) :
    distToSegment px py x1 y1 x2 y2 = distance px py x1 y1 := by
  rw [distToSegment]
  have himg : segParam px py x1 y1 x2 y2 '' Set.Icc 0 1 = {distance px py x1 y1} := by
    have hcongr : segParam px py x1 y1 x2 y2 '' Set.Icc 0 1 =
        (fun _ => distance px py x1 y1) '' Set.Icc (0 : ℝ) 1 := by
      apply Set.image_congr
      intro u _
      rw [segParam, hx, hy]
      norm_num
    rw [hcongr, Set.Nonempty.image_const ⟨0, by norm_num⟩]
  rw [himg, csInf_singleton]

/-- Claim C4: for every query point, segment, and non-negative threshold,
`isPointNearLine` returns true iff the distance from the point to the
segment is at most the threshold; in the degenerate case `a = b` it is the
point-to-point distance test. -/
theorem c4_point_near_segment_iff (px py x1 y1 x2 y2 threshold : ℝ)
    (hth : 0 ≤ threshold) :
    (isPointNearLine px py x1 y1 x2 y2 threshold ↔
       distToSegment px py x1 y1 x2 y2 ≤ threshold) ∧
    (x2 = x1 → y2 = y1 →
       (isPointNearLine px py x1 y1 x2 y2 threshold ↔ distance px py x1 y1 ≤ threshold)) := by
  constructor
  · rw [isPointNearLine]
    by_cases h0 : distance x1 y1 x2 y2 = 0
    · rw [if_pos h0]
      have hL0 : (x2 - x1) ^ 2 + (y2 - y1) ^ 2 = 0 := by
        rw [distance] at h0
        exact (Real.sqrt_eq_zero (by positivity)).mp h0
      have hdx : x2 = x1 := by nlinarith [sq_nonneg (x2 - x1), sq_nonneg (y2 - y1)]
      have hdy : y2 = y1 := by nlinarith [sq_nonneg (x2 - x1), sq_nonneg (y2 - y1)]
      rw [distToSegment_degenerate px py x1 y1 x2 y2 hdx hdy]
    · rw [if_neg h0]
      have hL2 : (0 : ℝ) ≤ (x2 - x1) ^ 2 + (y2 - y1) ^ 2 := by positivity
      have hLpos : 0 < (x2 - x1) ^ 2 + (y2 - y1) ^ 2 := by
        rcases hL2.lt_or_eq with h | h
        · exact h
        · exact absurd (by rw [distance, ← h, Real.sqrt_zero]) h0
      have hmul : distance x1 y1 x2 y2 * distance x1 y1 x2 y2 =
          (x2 - x1) ^ 2 + (y2 - y1) ^ 2 := by
        rw [distance]
        exact Real.mul_self_sqrt hL2
      rw [hmul]
      by_cases ht0 : ((px - x1) * (x2 - x1) + (py - y1) * (y2 - y1)) /
          ((x2 - x1) ^ 2 + (y2 - y1) ^ 2) < 0
      · rw [if_pos ht0]
        have hc : (px - x1) * (x2 - x1) + (py - y1) * (y2 - y1) < 0 := by
          have := mul_lt_mul_of_pos_right ht0 hLpos
          rwa [div_mul_cancel₀ _ (ne_of_gt hLpos), zero_mul] at this
        have heq : distToSegment px py x1 y1 x2 y2 = distance px py x1 y1 := by
          rw [distToSegment_eq_segParam px py x1 y1 x2 y2 0 (by norm_num) ?_, segParam]
          · norm_num
          · intro u hu
            simpa using clampZero_min (x2 - x1) (y2 - y1) (px - x1) (py - y1) u hu.1 hc
        rw [heq]
      · rw [if_neg ht0]
        by_cases ht1 : ((px - x1) * (x2 - x1) + (py - y1) * (y2 - y1)) /
            ((x2 - x1) ^ 2 + (y2 - y1) ^ 2) > 1
        · rw [if_pos ht1]
          have hc : (x2 - x1) ^ 2 + (y2 - y1) ^ 2 <
              (px - x1) * (x2 - x1) + (py - y1) * (y2 - y1) :=
            (one_lt_div hLpos).mp ht1
          have heq : distToSegment px py x1 y1 x2 y2 = distance px py x2 y2 := by
            rw [distToSegment_eq_segParam px py x1 y1 x2 y2 1 (by norm_num) ?_, segParam]
            · congr 1 <;> ring
            · intro u hu
              simpa using clampOne_min (x2 - x1) (y2 - y1) (px - x1) (py - y1) u hu.2 hc
          rw [heq]
        · rw [if_neg ht1]
          push_neg at ht0 ht1
          have htmem : ((px - x1) * (x2 - x1) + (py - y1) * (y2 - y1)) /
              ((x2 - x1) ^ 2 + (y2 - y1) ^ 2) ∈ Set.Icc (0 : ℝ) 1 := ⟨ht0, ht1⟩
          have htc : ((px - x1) * (x2 - x1) + (py - y1) * (y2 - y1)) /
              ((x2 - x1) ^ 2 + (y2 - y1) ^ 2) * ((x2 - x1) ^ 2 + (y2 - y1) ^ 2) =
              (px - x1) * (x2 - x1) + (py - y1) * (y2 - y1) :=
            div_mul_cancel₀ _ (ne_of_gt hLpos)
          have heq := distToSegment_eq_segParam px py x1 y1 x2 y2
            (((px - x1) * (x2 - x1) + (py - y1) * (y2 - y1)) /
              ((x2 - x1) ^ 2 + (y2 - y1) ^ 2)) htmem
            (fun u _ => clampMid_min (x2 - x1) (y2 - y1) (px - x1) (py - y1) _ u htc)
          rw [heq, segParam]
  · intro hx hy
    have h0 : distance x1 y1 x2 y2 = 0 := by
      rw [distance, hx, hy]
      norm_num
    rw [isPointNearLine, if_pos h0]

/-- Witness for C4 at a concrete non-negative threshold. -/
theorem c4_witness :
    (0 : ℝ) ≤ 5 ∧
    (isPointNearLine 0 0 0 0 1 1 5 ↔ distToSegment 0 0 0 0 1 1 ≤ 5) :=
  ⟨by norm_num, (c4_point_near_segment_iff 0 0 0 0 1 1 5 (by norm_num)).1⟩

end LPM
